import Mathlib

/-!
# Verification of the `wasd` WebRTC chat hub (FastAPI) core

Shallow embedding of the repository's routing/presence engine:

* `src/app/models.py`      — `User`, `Room` records.
* `src/app/websocket_manager.py` — `ConnectionManager` and its operations.
* `src/app/main.py`        — the per-event dispatch of `websocket_endpoint`.

Python dictionaries are embedded as association lists (`List (String × α)`)
with first-match lookup; `dict[k] = v` is "erase every binding of `k`, append
`(k, v)`", which has the same lookup behaviour as the source's in-place
update.  The set of live WebSocket handles (`active_connections`) is embedded
as the list of its keys plus a send oracle `ok : String → Bool` saying
whether a `send_text` on that handle succeeds (raises no exception).  Every
outbound `send_text` is recorded as a `SendEv`; for a room broadcast one
`SendEv` is recorded per non-excluded member processed by the loop, with
`delivered = false` covering both a raising `send_text` and a member whose
socket id is absent from `active_connections` (the two Python branches that
append to `disconnected_sockets`).
-/

/-- A JSON scalar value as produced by `json.loads` for a leaf field.
Booleans are kept distinct because Python's `isinstance(x, (int, float))`
treats them as numbers (`bool` subclasses `int`). -/
inductive JVal where
  | jnull
  | jbool (b : Bool)
  | jnum (n : Int)
  | jstr (s : String)
  deriving DecidableEq, Repr

/-- `models.User`. -/
structure User where
  id : String
  username : String
  socket_id : String
  deriving DecidableEq, Repr

/-- `models.Room`. -/
structure Room where
  room_id : String
  users : List User
  deriving DecidableEq, Repr

/-- An outbound message, by its discriminating `type` field. -/
inductive Msg where
  | user_joined (username message : String)
  | user_left (username message : String)
  | online_users (users : List (String × String))
  | new_message (username message : String) (timestamp : JVal)
  | webrtc_signal (sender : String) (data : List (String × JVal))
  | join_success (room_id socket_id : String)
  | error (message : String)
  | file_transfer_request (sender filename : String) (file_size : JVal) (file_type : String)
  | file_transfer_response (sender : String) (accepted : JVal) (filename : String)
  deriving DecidableEq, Repr

/-- One attempted `send_text`: the receiving socket id, the message, and
whether the send succeeded. -/
structure SendEv where
  socket : String
  msg : Msg
  delivered : Bool
  deriving DecidableEq, Repr

/-- First-match lookup in an association list (Python `d.get(k)`). -/
def alookup {α : Type} (l : List (String × α)) (k : String) : Option α :=
  (l.find? (fun p => p.1 == k)).map (fun p => p.2)

/-- Remove every binding of `k` (Python `del d[k]`, no-op when absent). -/
def aerase {α : Type} (l : List (String × α)) (k : String) : List (String × α) :=
  l.filter (fun p => p.1 != k)

/-- Python `d[k] = v`: same lookup behaviour as overwrite-in-place. -/
def ainsert {α : Type} (l : List (String × α)) (k : String) (v : α) : List (String × α) :=
  aerase l k ++ [(k, v)]

/-- `websocket_manager.ConnectionManager.__init__`. -/
structure ConnectionManager where
  rooms : List (String × Room)
  active_connections : List String
  user_sockets : List (String × String)
  socket_users : List (String × String)
  socket_rooms : List (String × String)
  deriving DecidableEq, Repr

def emptyCM : ConnectionManager := ⟨[], [], [], [], []⟩

/-- `ConnectionManager.connect`: register the accepted socket.  (A fresh
uuid4 is never already present; re-registering keeps the key set.) -/
def connect (m : ConnectionManager) (socket_id : String) : ConnectionManager :=
  if m.active_connections.contains socket_id then m
  else { m with active_connections := m.active_connections ++ [socket_id] }

/-- `ConnectionManager.disconnect` (websocket_manager.py lines 28-49):
remove the socket from the registry, drop both identity mappings when a
username was bound, and drop the socket→room mapping.  `rooms` is untouched. -/
def disconnect (m : ConnectionManager) (socket_id : String) : ConnectionManager :=
  let username := alookup m.socket_users socket_id
  let m1 := { m with active_connections := m.active_connections.filter (fun s => s != socket_id) }
  let m2 :=
    match username with
    | some u =>
      if u != "" then
        { m1 with user_sockets := aerase m1.user_sockets u,
                  socket_users := aerase m1.socket_users socket_id }
      else m1
    | none => m1
  { m2 with socket_rooms := aerase m2.socket_rooms socket_id }

/-- The loop guard `user.socket_id != exclude_socket` of
`broadcast_to_room`; with `exclude_socket = None` every (string) socket id
passes. -/
def passEx (excl : Option String) (u : User) : Bool :=
  match excl with
  | none => true
  | some e => u.socket_id != e

/-- One iteration of the `for user in room.users` loop of
`broadcast_to_room`: skip the excluded socket; otherwise record the send
attempt, and collect the socket id into `disconnected_sockets` when the
handle is missing or the send raises (`active.contains && ok` is false). -/
def bstep (active : List String) (ok : String → Bool) (msg : Msg) (excl : Option String)
    (acc : List SendEv × List String) (u : User) : List SendEv × List String :=
  if passEx excl u then
    if active.contains u.socket_id && ok u.socket_id then
      (acc.1 ++ [⟨u.socket_id, msg, true⟩], acc.2)
    else
      (acc.1 ++ [⟨u.socket_id, msg, false⟩], acc.2 ++ [u.socket_id])
  else acc

/-- `ConnectionManager.broadcast_to_room` (lines 155-186): iterate the
member snapshot once, collecting failures; only after the full pass call
`disconnect` on each failed socket id. -/
def broadcast_to_room (ok : String → Bool) (m : ConnectionManager) (room_id : String)
    (msg : Msg) (exclude_socket : Option String) : ConnectionManager × List SendEv :=
  match alookup m.rooms room_id with
  | none => (m, [])
  | some room =>
    let r := room.users.foldl (bstep m.active_connections ok msg exclude_socket) ([], [])
    (r.2.foldl disconnect m, r.1)

/-- `ConnectionManager.send_user_list` (lines 188-197): broadcast the
current member list of the room, with no exclusion, when the room exists. -/
def send_user_list (ok : String → Bool) (m : ConnectionManager) (room_id : String) :
    ConnectionManager × List SendEv :=
  match alookup m.rooms room_id with
  | some room =>
      broadcast_to_room ok m room_id
        (.online_users (room.users.map (fun u => (u.username, u.id)))) none
  | none => (m, [])

/-- The identity-mapping prefix of `ConnectionManager.join_room`
(lines 53-62): release the socket's previous username binding when it
differs, then last-writer-wins bind `username ↦ socket_id`, record
`socket_id ↦ username` and `socket_id ↦ room_id`. -/
def join_bind (m : ConnectionManager) (socket_id room_id username : String) : ConnectionManager :=
  let m1 :=
    match alookup m.socket_users socket_id with
    | some old =>
      if old != "" && old != username then
        { m with user_sockets := aerase m.user_sockets old }
      else m
    | none => m
  { m1 with user_sockets := ainsert m1.user_sockets username socket_id,
            socket_users := ainsert m1.socket_users socket_id username,
            socket_rooms := ainsert m1.socket_rooms socket_id room_id }

/-- Apply `f` to the room stored under `room_id` (in-place mutation of the
`Room` object fetched from `self.rooms`). -/
def updateRoom (m : ConnectionManager) (room_id : String) (f : Room → Room) : ConnectionManager :=
  { m with rooms := m.rooms.map (fun p => if p.1 == room_id then (p.1, f p.2) else p) }

/-- The room-directory part of `ConnectionManager.join_room` (lines 64-75):
create the room lazily, drop any member with the same socket id or the same
username, append the fresh member record. -/
def join_add_member (m : ConnectionManager) (socket_id room_id username : String) :
    ConnectionManager :=
  let m1 :=
    if (alookup m.rooms room_id).isSome then m
    else { m with rooms := ainsert m.rooms room_id ⟨room_id, []⟩ }
  updateRoom m1 room_id (fun room =>
    { room with users :=
        (room.users.filter (fun v => v.id != socket_id && v.username != username))
          ++ [⟨socket_id, username, socket_id⟩] })

/-- `ConnectionManager.join_room` (lines 51-90): bind, add the member, then
broadcast `user_joined` excluding the joiner, then broadcast the member
list. -/
def join_room (ok : String → Bool) (m : ConnectionManager)
    (socket_id room_id username : String) : ConnectionManager × List SendEv :=
  let m2 := join_add_member (join_bind m socket_id room_id username) socket_id room_id username
  let p1 := broadcast_to_room ok m2 room_id
    (.user_joined username (username ++ " has joined the room!")) (some socket_id)
  let p2 := send_user_list ok p1.1 room_id
  (p2.1, p1.2 ++ p2.2)

/-- `ConnectionManager.leave_room` (lines 92-118): drop the member by socket
id, broadcast `user_left` when a member was actually removed and a username
is bound, broadcast the member list, and delete the room when its member
list became empty.  (The final `if not room.users` reads the mutated `Room`
object; broadcasts never touch `rooms`, so it equals the filtered list.) -/
def leave_room (ok : String → Bool) (m : ConnectionManager) (socket_id room_id : String) :
    ConnectionManager × List SendEv :=
  match alookup m.rooms room_id with
  | none => (m, [])
  | some room0 =>
    let username := alookup m.socket_users socket_id
    let newUsers := room0.users.filter (fun v => v.id != socket_id)
    let m1 := updateRoom m room_id (fun room =>
      { room with users := room.users.filter (fun v => v.id != socket_id) })
    let p1 :=
      if newUsers.length < room0.users.length &&
          (match username with | some u => u != "" | none => false) then
        broadcast_to_room ok m1 room_id
          (.user_left ((username.getD "")) ((username.getD "") ++ " has left the room!")) none
      else (m1, [])
    let p2 := send_user_list ok p1.1 room_id
    let m3 := if newUsers.isEmpty then { p2.1 with rooms := aerase p2.1.rooms room_id } else p2.1
    (m3, p1.2 ++ p2.2)

/-- `ConnectionManager.send_personal_message` (lines 120-135): a missing
handle returns failure with no attempt; a raising `send_text` disconnects
the socket and returns failure. -/
def send_personal_message (ok : String → Bool) (m : ConnectionManager)
    (socket_id : String) (msg : Msg) : ConnectionManager × List SendEv × Bool :=
  if m.active_connections.contains socket_id then
    if ok socket_id then (m, [⟨socket_id, msg, true⟩], true)
    else (disconnect m socket_id, [⟨socket_id, msg, false⟩], false)
  else (m, [], false)

/-- `ConnectionManager.send_to_user` (lines 137-153): resolve the username,
fail when unbound (or bound to a falsy id), otherwise delegate. -/
def send_to_user (ok : String → Bool) (m : ConnectionManager)
    (username : String) (msg : Msg) : ConnectionManager × List SendEv × Bool :=
  match alookup m.user_sockets username with
  | some sid => if sid != "" then send_personal_message ok m sid msg else (m, [], false)
  | none => (m, [], false)

/-- Python truthiness of an optional string field (`None` and `""` are
falsy). -/
def otruthy : Option String → Bool
  | some s => s != ""
  | none => false

/-- The `file_size` normalization of `websocket_endpoint`
(main.py lines 170-173): `if not isinstance(file_size, (int, float)) or
file_size < 0: file_size = 0`.  A boolean passes the `isinstance` check
(Python `bool` subclasses `int`) and is never `< 0`, so it is forwarded
unchanged. -/
def normFileSize : Option JVal → JVal
  | some (.jnum n) => if n < 0 then .jnum 0 else .jnum n
  | some (.jbool b) => .jbool b
  | _ => .jnum 0

/-- One decoded inbound event, by its `type` field, with every field the
handler reads (`message_data.get(...)` yields `none` when absent).  The
`webrtc_signal` `data` field is `some fields` when the client sent a JSON
object; a missing `data` makes the handler's `signal_data.get(...)` raise
`AttributeError` into the outer `except`. -/
inductive Event where
  | join_room (username : Option String)
  | chat_message (username message : Option String) (timestamp : Option JVal)
  | webrtc_signal (sender target : Option String) (data : Option (List (String × JVal)))
  | file_transfer_request (sender target filename : Option String)
      (file_size : Option JVal) (file_type : Option String)
  | file_transfer_response (sender target : Option String)
      (accepted : Option JVal) (filename : Option String)
  deriving DecidableEq, Repr

/-- The `except` handlers of `websocket_endpoint` (main.py lines 212-219):
`leave_room` then `disconnect` for the failing connection. -/
def endpoint_cleanup (ok : String → Bool) (m : ConnectionManager)
    (socket_id room_id : String) : ConnectionManager × List SendEv :=
  let p := leave_room ok m socket_id room_id
  (disconnect p.1 socket_id, p.2)

/-- A direct `websocket.send_text` on the handler's own socket: a raising
send falls into the outer `except`, which runs `endpoint_cleanup`. -/
def ws_send (ok : String → Bool) (m : ConnectionManager) (socket_id room_id : String)
    (msg : Msg) (tr : List SendEv) : ConnectionManager × List SendEv :=
  if ok socket_id then (m, tr ++ [⟨socket_id, msg, true⟩])
  else
    let p := endpoint_cleanup ok m socket_id room_id
    (p.1, tr ++ [⟨socket_id, msg, false⟩] ++ p.2)

/-- One iteration of the `websocket_endpoint` receive loop
(main.py lines 110-210) applied to a decoded event. -/
def handle_event (ok : String → Bool) (m : ConnectionManager) (socket_id room_id : String) :
    Event → ConnectionManager × List SendEv
  | .join_room username =>
    match username with
    | some u =>
      if u != "" then
        let p := join_room ok m socket_id room_id u
        ws_send ok p.1 socket_id room_id (.join_success room_id socket_id) p.2
      else (m, [])
    | none => (m, [])
  | .chat_message username message timestamp =>
    match username, message with
    | some u, some msg =>
      if u != "" && msg != "" then
        broadcast_to_room ok m room_id (.new_message u msg (timestamp.getD .jnull)) none
      else (m, [])
    | _, _ => (m, [])
  | .webrtc_signal sender target data =>
    match data with
    | some fields =>
      if otruthy sender && otruthy target && !fields.isEmpty then
        let p := send_to_user ok m (target.getD "")
          (.webrtc_signal (sender.getD "") fields)
        if p.2.2 then (p.1, p.2.1)
        else
          ws_send ok p.1 socket_id room_id
            (.error ("Failed to deliver WebRTC signal to " ++ target.getD "")) p.2.1
      else (m, [])
    | none => endpoint_cleanup ok m socket_id room_id
  | .file_transfer_request sender target filename file_size file_type =>
    if !(otruthy sender && otruthy target) then
      ws_send ok m socket_id room_id (.error "Invalid file transfer request") []
    else
      let fname := match filename with
        | some f => if f != "" then f else "Unknown file"
        | none => "Unknown file"
      let p := send_to_user ok m (target.getD "")
        (.file_transfer_request (sender.getD "") fname (normFileSize file_size)
          (file_type.getD "application/octet-stream"))
      if p.2.2 then (p.1, p.2.1)
      else
        ws_send ok p.1 socket_id room_id
          (.error ("User " ++ target.getD "" ++ " is not available")) p.2.1
  | .file_transfer_response sender target accepted filename =>
    if otruthy sender && otruthy target then
      let p := send_to_user ok m (target.getD "")
        (.file_transfer_response (sender.getD "") (accepted.getD .jnull)
          (filename.getD "Unknown file"))
      (p.1, p.2.1)
    else (m, [])

/-- A join/leave operation on the room directory (the two
`ConnectionManager` operations that create and delete rooms). -/
inductive Op where
  | join (socket_id room_id username : String)
  | leave (socket_id room_id : String)
  deriving DecidableEq, Repr

def runOp (ok : String → Bool) (m : ConnectionManager) : Op → ConnectionManager
  | .join sid rid u => (join_room ok m sid rid u).1
  | .leave sid rid => (leave_room ok m sid rid).1

def runOps (ok : String → Bool) (m : ConnectionManager) (ops : List Op) : ConnectionManager :=
  ops.foldl (runOp ok) m


theorem alookup_nil {α : Type} (k : String) : alookup ([] : List (String × α)) k = none := rfl

theorem alookup_cons {α : Type} (p : String × α) (l : List (String × α)) (k : String) :
    alookup (p :: l) k = if p.1 == k then some p.2 else alookup l k := by
  by_cases h : p.1 == k <;> simp [alookup, List.find?_cons, h]

theorem aerase_nil {α : Type} (k : String) : aerase ([] : List (String × α)) k = [] := rfl

theorem aerase_cons {α : Type} (p : String × α) (l : List (String × α)) (k : String) :
    aerase (p :: l) k = if p.1 == k then aerase l k else p :: aerase l k := by
  by_cases h : p.1 == k <;> simp [aerase, List.filter_cons, bne, h]

theorem alookup_append {α : Type} (l1 l2 : List (String × α)) (k : String) :
    alookup (l1 ++ l2) k =
      match alookup l1 k with
      | some v => some v
      | none => alookup l2 k := by
  induction l1 with
  | nil => simp [alookup_nil]
  | cons p l ih =>
    rw [List.cons_append, alookup_cons, alookup_cons]
    by_cases h : p.1 == k <;> simp [h, ih]

theorem alookup_aerase_self {α : Type} (l : List (String × α)) (k : String) :
    alookup (aerase l k) k = none := by
  induction l with
  | nil => rfl
  | cons p l ih =>
    rw [aerase_cons]
    by_cases h : p.1 == k
    · simpa [h] using ih
    · rw [if_neg (by simpa using h), alookup_cons]
      simpa [h] using ih

theorem alookup_aerase_ne {α : Type} (l : List (String × α)) (k k' : String) (h : k' ≠ k) :
    alookup (aerase l k) k' = alookup l k' := by
  induction l with
  | nil => rfl
  | cons p l ih =>
    rw [aerase_cons]
    by_cases hp : p.1 == k
    · have hne : (p.1 == k') = false := by
        rw [beq_iff_eq] at hp
        subst hp
        simpa using Ne.symm h
      rw [if_pos hp, alookup_cons]
      simp only [hne, if_false]
      exact ih
    · rw [if_neg (by simpa using hp), alookup_cons, alookup_cons]
      by_cases hq : p.1 == k'
      · simp [hq]
      · simp only [hq, if_false]
        exact ih

theorem alookup_ainsert_self {α : Type} (l : List (String × α)) (k : String) (v : α) :
    alookup (ainsert l k v) k = some v := by
  rw [ainsert, alookup_append, alookup_aerase_self]
  simp [alookup_cons]

theorem alookup_ainsert_ne {α : Type} (l : List (String × α)) (k k' : String) (v : α)
    (h : k' ≠ k) :
    alookup (ainsert l k v) k' = alookup l k' := by
  rw [ainsert, alookup_append, alookup_aerase_ne l k k' h]
  cases hl : alookup l k' with
  | some w => rfl
  | none =>
    simp only [alookup_cons, alookup_nil]
    have : (k == k') = false := by simpa using Ne.symm h
    simp [this]

theorem alookup_eq_none_iff {α : Type} (l : List (String × α)) (k : String) :
    alookup l k = none ↔ ∀ p ∈ l, p.1 ≠ k := by
  simp [alookup, List.find?_eq_none]

theorem mem_of_alookup {α : Type} (l : List (String × α)) (k : String) (v : α)
    (h : alookup l k = some v) : (k, v) ∈ l := by
  rw [alookup] at h
  cases hf : l.find? (fun p => p.1 == k) with
  | none => rw [hf] at h; simp at h
  | some p =>
    rw [hf] at h
    have hkey := List.find?_some hf
    have hmem : p ∈ l := List.mem_of_find?_eq_some hf
    obtain ⟨a, b⟩ := p
    simp at h hkey
    subst hkey
    subst h
    exact hmem

theorem alookup_of_mem_nodup {α : Type} (l : List (String × α)) (k : String) (v : α)
    (hnd : (l.map Prod.fst).Nodup) (hmem : (k, v) ∈ l) : alookup l k = some v := by
  induction l with
  | nil => simp at hmem
  | cons p l ih =>
    rw [List.map_cons, List.nodup_cons] at hnd
    rw [alookup_cons]
    rcases List.mem_cons.mp hmem with heq | hmem'
    · subst heq; simp
    · have hk : k ∈ l.map Prod.fst := List.mem_map_of_mem Prod.fst hmem'
      have hne : (p.1 == k) = false := by
        rw [beq_eq_false_iff_ne]
        intro heq
        exact hnd.1 (heq ▸ hk)
      simp only [hne, if_false]
      exact ih hnd.2 hmem'

theorem alookup_map_update (l : List (String × Room)) (k : String) (f : Room → Room) :
    alookup (l.map (fun p => if p.1 == k then (p.1, f p.2) else p)) k
      = (alookup l k).map f := by
  induction l with
  | nil => rfl
  | cons p l ih =>
    rw [List.map_cons]
    by_cases h : p.1 == k
    · simp only [h, if_true, alookup_cons, h]
      simp [alookup_cons, h]
    · simp only [h]
      rw [if_neg (by simp [h]), alookup_cons, alookup_cons]
      simp only [h, if_false]
      exact ih

theorem alookup_map_update_ne (l : List (String × Room)) (k k' : String) (f : Room → Room)
    (h : k' ≠ k) :
    alookup (l.map (fun p => if p.1 == k then (p.1, f p.2) else p)) k'
      = alookup l k' := by
  induction l with
  | nil => rfl
  | cons p l ih =>
    rw [List.map_cons]
    by_cases hp : p.1 == k
    · have hne : (p.1 == k') = false := by
        rw [beq_iff_eq] at hp
        subst hp
        simpa using Ne.symm h
      rw [if_pos hp, alookup_cons, alookup_cons]
      simp only [hne, if_false]
      exact ih
    · rw [if_neg (by simpa using hp), alookup_cons, alookup_cons]
      by_cases hq : p.1 == k'
      · simp [hq]
      · simp only [hq, if_false]
        exact ih

theorem disconnect_rooms (m : ConnectionManager) (s : String) :
    (disconnect m s).rooms = m.rooms := by
  unfold disconnect
  cases alookup m.socket_users s with
  | none => rfl
  | some u =>
    by_cases h : u != "" <;> simp [h]

theorem foldl_disconnect_rooms (l : List String) (m : ConnectionManager) :
    (l.foldl disconnect m).rooms = m.rooms := by
  induction l generalizing m with
  | nil => rfl
  | cons x xs ih => rw [List.foldl_cons, ih, disconnect_rooms]

theorem broadcast_to_room_rooms (ok : String → Bool) (m : ConnectionManager)
    (room_id : String) (msg : Msg) (ex : Option String) :
    (broadcast_to_room ok m room_id msg ex).1.rooms = m.rooms := by
  unfold broadcast_to_room
  cases alookup m.rooms room_id with
  | none => rfl
  | some room => simp [foldl_disconnect_rooms]

theorem send_user_list_rooms (ok : String → Bool) (m : ConnectionManager) (room_id : String) :
    (send_user_list ok m room_id).1.rooms = m.rooms := by
  unfold send_user_list
  cases alookup m.rooms room_id with
  | none => rfl
  | some room => simp [broadcast_to_room_rooms]

theorem bfold_events (a : List String) (ok : String → Bool) (msg : Msg) (ex : Option String)
    (users : List User) (evs : List SendEv) (ds : List String) :
    (users.foldl (bstep a ok msg ex) (evs, ds)).1
      = evs ++ (users.filter (passEx ex)).map
          (fun u => ⟨u.socket_id, msg, a.contains u.socket_id && ok u.socket_id⟩) := by
  induction users generalizing evs ds with
  | nil => simp
  | cons u us ih =>
    rw [List.foldl_cons, List.filter_cons]
    by_cases hp : passEx ex u
    · rw [if_pos hp]
      by_cases hc : (a.contains u.socket_id && ok u.socket_id) = true
      · rw [bstep, if_pos hp, if_pos hc, ih, List.map_cons, hc]
        simp
      · rw [bstep, if_pos hp, if_neg hc, ih, List.map_cons]
        rw [Bool.not_eq_true] at hc
        rw [hc]
        simp
    · rw [if_neg hp, bstep, if_neg hp]
      exact ih evs ds

theorem bfold_failed (a : List String) (ok : String → Bool) (msg : Msg) (ex : Option String)
    (users : List User) (evs : List SendEv) (ds : List String) :
    (users.foldl (bstep a ok msg ex) (evs, ds)).2
      = ds ++ ((users.filter (passEx ex)).filter
          (fun u => !(a.contains u.socket_id && ok u.socket_id))).map (fun u => u.socket_id) := by
  induction users generalizing evs ds with
  | nil => simp
  | cons u us ih =>
    rw [List.foldl_cons, List.filter_cons]
    by_cases hp : passEx ex u
    · rw [if_pos hp, List.filter_cons]
      by_cases hc : (a.contains u.socket_id && ok u.socket_id) = true
      · rw [bstep, if_pos hp, if_pos hc, ih, hc]
        simp
      · rw [bstep, if_pos hp, if_neg hc, ih]
        rw [Bool.not_eq_true] at hc
        rw [hc]
        simp
    · rw [if_neg hp, bstep, if_neg hp]
      exact ih evs ds

theorem broadcast_events (ok : String → Bool) (m : ConnectionManager) (room_id : String)
    (msg : Msg) (ex : Option String) (room : Room)
    (h : alookup m.rooms room_id = some room) :
    (broadcast_to_room ok m room_id msg ex).2
      = (room.users.filter (passEx ex)).map
          (fun u => ⟨u.socket_id, msg,
            m.active_connections.contains u.socket_id && ok u.socket_id⟩) := by
  unfold broadcast_to_room
  rw [h]
  simpa using bfold_events m.active_connections ok msg ex room.users [] []

theorem broadcast_state (ok : String → Bool) (m : ConnectionManager) (room_id : String)
    (msg : Msg) (ex : Option String) (room : Room)
    (h : alookup m.rooms room_id = some room) :
    (broadcast_to_room ok m room_id msg ex).1
      = (((room.users.filter (passEx ex)).filter
            (fun u => !(m.active_connections.contains u.socket_id && ok u.socket_id))).map
              (fun u => u.socket_id)).foldl disconnect m := by
  unfold broadcast_to_room
  rw [h]
  simpa using congrArg (fun l => l.foldl disconnect m)
    (bfold_failed m.active_connections ok msg ex room.users [] [])

theorem filter_passEx_none (l : List User) : l.filter (passEx none) = l := by
  induction l with
  | nil => rfl
  | cons u us ih => rw [List.filter_cons]; simp [passEx, ih]

theorem send_user_list_events (ok : String → Bool) (m : ConnectionManager) (room_id : String)
    (room : Room) (h : alookup m.rooms room_id = some room) :
    (send_user_list ok m room_id).2
      = room.users.map (fun u =>
          ⟨u.socket_id, .online_users (room.users.map (fun v => (v.username, v.id))),
            m.active_connections.contains u.socket_id && ok u.socket_id⟩) := by
  unfold send_user_list
  rw [h, broadcast_events ok m room_id _ none room h, filter_passEx_none]

/-- The member list of a room, `[]` when the room is absent
(`get_room_users` behaviour). -/
def roomUsers (m : ConnectionManager) (room_id : String) : List User :=
  ((alookup m.rooms room_id).map (fun r => r.users)).getD []

theorem join_bind_rooms (m : ConnectionManager) (sid rid u : String) :
    (join_bind m sid rid u).rooms = m.rooms := by
  unfold join_bind
  cases alookup m.socket_users sid with
  | none => rfl
  | some old => by_cases h : (old != "" && old != u) = true <;> simp [h]

theorem alookup_updateRoom (m : ConnectionManager) (k : String) (f : Room → Room) :
    alookup (updateRoom m k f).rooms k = (alookup m.rooms k).map f := by
  unfold updateRoom
  exact alookup_map_update m.rooms k f

theorem alookup_updateRoom_ne (m : ConnectionManager) (k k' : String) (f : Room → Room)
    (h : k' ≠ k) :
    alookup (updateRoom m k f).rooms k' = alookup m.rooms k' := by
  unfold updateRoom
  exact alookup_map_update_ne m.rooms k k' f h

theorem join_add_member_lookup (m : ConnectionManager) (sid rid u : String) :
    alookup (join_add_member m sid rid u).rooms rid
      = some { room_id := ((alookup m.rooms rid).getD ⟨rid, []⟩).room_id,
               users := (roomUsers m rid).filter (fun v => v.id != sid && v.username != u)
                          ++ [⟨sid, u, sid⟩] } := by
  unfold join_add_member roomUsers
  cases h : alookup m.rooms rid with
  | some room =>
    simp only [h, Option.isSome_some, if_true]
    rw [alookup_updateRoom, h]
    rfl
  | none =>
    simp only [h, Option.isSome_none, Bool.false_eq_true, if_false]
    rw [alookup_updateRoom]
    show (alookup (ainsert m.rooms rid ⟨rid, []⟩) rid).map _ = _
    rw [alookup_ainsert_self]
    rfl

theorem join_add_member_lookup_ne (m : ConnectionManager) (sid rid u rid' : String)
    (h : rid' ≠ rid) :
    alookup (join_add_member m sid rid u).rooms rid' = alookup m.rooms rid' := by
  unfold join_add_member
  cases hl : alookup m.rooms rid with
  | some room =>
    simp only [hl, Option.isSome_some, if_true]
    rw [alookup_updateRoom_ne _ _ _ _ h]
  | none =>
    simp only [hl, Option.isSome_none, Bool.false_eq_true, if_false]
    rw [alookup_updateRoom_ne _ _ _ _ h]
    show alookup (ainsert m.rooms rid ⟨rid, []⟩) rid' = _
    rw [alookup_ainsert_ne _ _ _ _ h]

theorem join_room_rooms (ok : String → Bool) (m : ConnectionManager) (sid rid u : String) :
    (join_room ok m sid rid u).1.rooms
      = (join_add_member (join_bind m sid rid u) sid rid u).rooms := by
  unfold join_room
  rw [send_user_list_rooms, broadcast_to_room_rooms]

theorem roomUsers_of_rooms_eq (m1 m2 : ConnectionManager) (rid : String)
    (h : m1.rooms = m2.rooms) : roomUsers m1 rid = roomUsers m2 rid := by
  unfold roomUsers
  rw [h]

theorem join_room_users (ok : String → Bool) (m : ConnectionManager) (sid rid u : String) :
    roomUsers (join_room ok m sid rid u).1 rid
      = (roomUsers m rid).filter (fun v => v.id != sid && v.username != u)
          ++ [⟨sid, u, sid⟩] := by
  rw [roomUsers, join_room_rooms, join_add_member_lookup]
  rw [roomUsers, join_bind_rooms, roomUsers]
  rfl

theorem join_room_lookup_isSome (ok : String → Bool) (m : ConnectionManager)
    (sid rid u : String) :
    (alookup (join_room ok m sid rid u).1.rooms rid).isSome = true := by
  rw [join_room_rooms, join_add_member_lookup]
  rfl

theorem join_room_lookup_ne (ok : String → Bool) (m : ConnectionManager)
    (sid rid u rid' : String) (h : rid' ≠ rid) :
    alookup (join_room ok m sid rid u).1.rooms rid' = alookup m.rooms rid' := by
  rw [join_room_rooms, join_add_member_lookup_ne _ _ _ _ _ h, join_bind_rooms]

theorem leave_room_absent (ok : String → Bool) (m : ConnectionManager) (sid rid : String)
    (h : alookup m.rooms rid = none) :
    (leave_room ok m sid rid).1 = m := by
  unfold leave_room
  rw [h]

theorem leave_room_rooms (ok : String → Bool) (m : ConnectionManager) (sid rid : String)
    (room0 : Room) (h : alookup m.rooms rid = some room0) :
    (leave_room ok m sid rid).1.rooms
      = (if (room0.users.filter (fun v => v.id != sid)).isEmpty
         then aerase (updateRoom m rid (fun room =>
           { room with users := room.users.filter (fun v => v.id != sid) })).rooms rid
         else (updateRoom m rid (fun room =>
           { room with users := room.users.filter (fun v => v.id != sid) })).rooms) := by
  unfold leave_room
  rw [h]
  by_cases hempty : (room0.users.filter (fun v => v.id != sid)).isEmpty = true
  · rw [if_pos hempty]
    simp only [hempty, if_true, List.isEmpty_iff]
    split
    · rw [send_user_list_rooms, broadcast_to_room_rooms]
    · rw [send_user_list_rooms]
  · rw [if_neg hempty]
    simp only [hempty, Bool.false_eq_true, if_false]
    split
    · rw [send_user_list_rooms, broadcast_to_room_rooms]
    · rw [send_user_list_rooms]

/-- The room-directory invariant: every stored room is non-empty, and room
ids are not duplicated. -/
def RoomsInv (m : ConnectionManager) : Prop :=
  (∀ p ∈ m.rooms, p.2.users ≠ []) ∧ (m.rooms.map Prod.fst).Nodup

theorem mem_aerase {α : Type} (l : List (String × α)) (k : String) (p : String × α)
    (h : p ∈ aerase l k) : p ∈ l ∧ p.1 ≠ k := by
  unfold aerase at h
  have hf := List.mem_filter.mp h
  refine ⟨hf.1, ?_⟩
  simpa using hf.2

theorem keys_aerase_nodup {α : Type} (l : List (String × α)) (k : String)
    (h : (l.map Prod.fst).Nodup) : ((aerase l k).map Prod.fst).Nodup := by
  have hs : (aerase l k).Sublist l := List.filter_sublist l
  exact h.sublist (hs.map Prod.fst)

theorem keys_ainsert_nodup {α : Type} (l : List (String × α)) (k : String) (v : α)
    (h : (l.map Prod.fst).Nodup) : ((ainsert l k v).map Prod.fst).Nodup := by
  unfold ainsert
  rw [List.map_append, List.nodup_append]
  refine ⟨keys_aerase_nodup l k h, List.nodup_singleton k, ?_⟩
  intro x hx hy
  simp only [List.map_cons, List.map_nil, List.mem_singleton] at hy
  obtain ⟨p, hp, hpx⟩ := List.mem_map.mp hx
  exact (mem_aerase l k p hp).2 (hpx.trans hy)

theorem keys_updateRoom (m : ConnectionManager) (k : String) (f : Room → Room) :
    (updateRoom m k f).rooms.map Prod.fst = m.rooms.map Prod.fst := by
  unfold updateRoom
  rw [List.map_map]
  apply List.map_congr_left
  intro p _
  by_cases h : p.1 = k <;> simp [h]

theorem mem_updateRoom (m : ConnectionManager) (k : String) (f : Room → Room)
    (p : String × Room) (h : p ∈ (updateRoom m k f).rooms) :
    (∃ q ∈ m.rooms, q.1 = k ∧ p = (q.1, f q.2)) ∨ (p ∈ m.rooms ∧ p.1 ≠ k) := by
  unfold updateRoom at h
  obtain ⟨q, hq, hpq⟩ := List.mem_map.mp h
  by_cases hk : q.1 == k
  · left
    refine ⟨q, hq, by simpa using hk, ?_⟩
    rw [← hpq, if_pos hk]
  · right
    rw [← hpq, if_neg hk]
    exact ⟨hq, by simpa using hk⟩

theorem roomsInv_rooms_congr (m1 m2 : ConnectionManager) (h : m1.rooms = m2.rooms)
    (hi : RoomsInv m1) : RoomsInv m2 := by
  unfold RoomsInv at *
  rw [← h]
  exact hi

theorem roomsInv_join_add_member (m : ConnectionManager) (sid rid u : String)
    (h : RoomsInv m) : RoomsInv (join_add_member m sid rid u) := by
  unfold join_add_member
  by_cases hc : (alookup m.rooms rid).isSome = true
  · rw [if_pos hc]
    constructor
    · intro p hp
      rcases mem_updateRoom m rid _ p hp with ⟨q, _, _, rfl⟩ | ⟨hpm, _⟩
      · simp
      · exact h.1 p hpm
    · rw [keys_updateRoom]
      exact h.2
  · rw [if_neg hc]
    constructor
    · intro p hp
      rcases mem_updateRoom _ rid _ p hp with ⟨q, _, _, rfl⟩ | ⟨hpm, hpk⟩
      · simp
      · rcases List.mem_append.mp hpm with h1 | h1
        · exact h.1 p (mem_aerase m.rooms rid p h1).1
        · simp only [List.mem_singleton] at h1
          rw [h1] at hpk
          simp at hpk
    · rw [keys_updateRoom]
      exact keys_ainsert_nodup m.rooms rid ⟨rid, []⟩ h.2

theorem roomsInv_join_room (ok : String → Bool) (m : ConnectionManager) (sid rid u : String)
    (h : RoomsInv m) : RoomsInv (join_room ok m sid rid u).1 := by
  apply roomsInv_rooms_congr (join_add_member (join_bind m sid rid u) sid rid u) _
    (join_room_rooms ok m sid rid u).symm
  exact roomsInv_join_add_member _ sid rid u
    (roomsInv_rooms_congr m _ (join_bind_rooms m sid rid u).symm h)

theorem roomsInv_leave_room (ok : String → Bool) (m : ConnectionManager) (sid rid : String)
    (h : RoomsInv m) : RoomsInv (leave_room ok m sid rid).1 := by
  cases hl : alookup m.rooms rid with
  | none =>
    rw [leave_room_absent ok m sid rid hl]
    exact h
  | some room0 =>
    have hr := leave_room_rooms ok m sid rid room0 hl
    constructor
    · intro p hp
      rw [hr] at hp
      by_cases hempty : (room0.users.filter (fun v => v.id != sid)).isEmpty = true
      · rw [if_pos hempty] at hp
        obtain ⟨hp1, hpk⟩ := mem_aerase _ rid p hp
        rcases mem_updateRoom m rid _ p hp1 with ⟨q, _, hqk, hpq⟩ | ⟨hpm, _⟩
        · rw [hpq] at hpk
          exact absurd hqk hpk
        · exact h.1 p hpm
      · rw [if_neg hempty] at hp
        rcases mem_updateRoom m rid _ p hp with ⟨q, hq, hqk, hpq⟩ | ⟨hpm, _⟩
        · have hlq : alookup m.rooms rid = some q.2 := by
            rw [← hqk]
            exact alookup_of_mem_nodup m.rooms q.1 q.2 h.2 hq
          rw [hl] at hlq
          have hq2 : q.2 = room0 := by injection hlq with hh; exact hh.symm
          rw [hpq]
          simp only [ne_eq]
          intro habs
          apply hempty
          rw [← hq2, habs] at hempty ⊢
          rfl
        · exact h.1 p hpm
    · have hkeys : ((updateRoom m rid (fun room =>
          { room with users := room.users.filter (fun v => v.id != sid) })).rooms.map
            Prod.fst).Nodup := by
        rw [keys_updateRoom]
        exact h.2
      rw [hr]
      by_cases hempty : (room0.users.filter (fun v => v.id != sid)).isEmpty = true
      · rw [if_pos hempty]
        exact keys_aerase_nodup _ rid hkeys
      · rw [if_neg hempty]
        exact hkeys

theorem roomsInv_emptyCM : RoomsInv emptyCM := by
  constructor
  · intro p hp
    simp [emptyCM] at hp
  · simp [emptyCM]

theorem roomsInv_runOps (ok : String → Bool) (ops : List Op) :
    RoomsInv (runOps ok emptyCM ops) := by
  suffices hgen : ∀ m, RoomsInv m → RoomsInv (runOps ok m ops) from
    hgen emptyCM roomsInv_emptyCM
  induction ops with
  | nil =>
    intro m hm
    exact hm
  | cons op ops ih =>
    intro m hm
    rw [runOps, List.foldl_cons]
    refine ih _ ?_
    cases op with
    | join sid rid u => exact roomsInv_join_room ok m sid rid u hm
    | leave sid rid => exact roomsInv_leave_room ok m sid rid hm

theorem runOps_append (ok : String → Bool) (m : ConnectionManager) (ops1 ops2 : List Op) :
    runOps ok m (ops1 ++ ops2) = runOps ok (runOps ok m ops1) ops2 := by
  unfold runOps
  exact List.foldl_append _ _ _ _

theorem join_room_fresh_lookup (ok : String → Bool) (m : ConnectionManager)
    (sid rid u : String) (h : alookup m.rooms rid = none) :
    alookup (join_room ok m sid rid u).1.rooms rid = some ⟨rid, [⟨sid, u, sid⟩]⟩ := by
  rw [join_room_rooms, join_add_member_lookup]
  unfold roomUsers
  rw [join_bind_rooms, h]
  rfl

theorem join_leave_fresh (ok : String → Bool) (m : ConnectionManager) (sid rid u : String)
    (h : alookup m.rooms rid = none) :
    alookup ((leave_room ok (join_room ok m sid rid u).1 sid rid).1).rooms rid = none := by
  rw [leave_room_rooms ok _ sid rid _ (join_room_fresh_lookup ok m sid rid u h)]
  simp [alookup_aerase_self]

/-- C2: starting from the empty state, after every sequence of join/leave
operations a room id is present in the directory iff its member list is
non-empty; and a join of a fresh room followed by the matching leave
returns the directory to not containing that room. -/
theorem c2_room_iff_nonempty (ok : String → Bool) (ops : List Op) (rid : String) :
    ((alookup (runOps ok emptyCM ops).rooms rid).isSome
        ↔ 1 ≤ (roomUsers (runOps ok emptyCM ops) rid).length)
    ∧ (∀ sid u, alookup (runOps ok emptyCM ops).rooms rid = none →
        alookup (runOps ok emptyCM
          (ops ++ [Op.join sid rid u, Op.leave sid rid])).rooms rid = none) := by
  constructor
  · constructor
    · intro hs
      obtain ⟨room, hroom⟩ := Option.isSome_iff_exists.mp hs
      have hmem := mem_of_alookup _ _ _ hroom
      have hne := (roomsInv_runOps ok ops).1 _ hmem
      rw [roomUsers, hroom]
      have : room.users ≠ [] := hne
      simpa [Nat.one_le_iff_ne_zero, List.length_eq_zero] using this
    · intro hlen
      cases hlook : alookup (runOps ok emptyCM ops).rooms rid with
      | some r => simp
      | none =>
        rw [roomUsers, hlook] at hlen
        simp at hlen
  · intro sid u hnone
    rw [runOps_append]
    show alookup ((leave_room ok
      (join_room ok (runOps ok emptyCM ops) sid rid u).1 sid rid).1).rooms rid = none
    exact join_leave_fresh ok _ sid rid u hnone

/-- Witness for C2 at a concrete input: the empty sequence, then joining and
leaving the fresh room `"r"` leaves the directory without `"r"`. -/
theorem c2_witness :
    alookup (runOps (fun _ => true) emptyCM
      ([] ++ [Op.join "A" "r" "alice", Op.leave "A" "r"])).rooms "r" = none :=
  (c2_room_iff_nonempty (fun _ => true) [] "r").2 "A" "alice" rfl

theorem filter_username_of_join_filter (l : List User) (sid u : String) :
    ((l.filter (fun v => v.id != sid && v.username != u)).filter
      (fun v => v.username == u)) = [] := by
  rw [List.filter_eq_nil_iff]
  intro v hv
  have hcond := (List.mem_filter.mp hv).2
  simp only [Bool.and_eq_true, bne_iff_ne, ne_eq] at hcond
  simp only [beq_iff_eq]
  exact hcond.2

/-- C5: after joining with username `u` under socket `A` and again under a
different socket `B`, the room's member list holds exactly one record with
username `u`, namely the fresh one for `B`. -/
theorem c5_add_member_idempotent (ok : String → Bool) (m : ConnectionManager)
    (A B r u : String) (h : A ≠ B) :
    (roomUsers ((join_room ok ((join_room ok m A r u).1) B r u).1) r).filter
      (fun v => v.username == u) = [⟨B, u, B⟩] := by
  rw [join_room_users, List.filter_append, filter_username_of_join_filter]
  simp

/-- Witness for C5 at a concrete input. -/
theorem c5_witness :
    ("A" : String) ≠ "B"
      ∧ (roomUsers ((join_room (fun _ => true)
            ((join_room (fun _ => true) emptyCM "A" "r" "alice").1) "B" "r" "alice").1) "r").filter
          (fun v => v.username == "alice") = [⟨"B", "alice", "B"⟩] :=
  ⟨by decide, c5_add_member_idempotent (fun _ => true) emptyCM "A" "B" "r" "alice" (by decide)⟩

/-- C10: when username `u` has been rebound to socket `B` while the stale
socket `A` still maps to `u`, disconnecting `A` deletes the `u ↦ B` entry,
although `B` stays registered and its room record stays in the directory. -/
theorem c10_reap_destroys_binding (m : ConnectionManager) (u A B rid : String) (room : Room)
    (hbindA : alookup m.socket_users A = some u) (hu : u ≠ "")
    (hlook : alookup m.user_sockets u = some B) (hAB : A ≠ B)
    (hactive : B ∈ m.active_connections)
    (hroom : alookup m.rooms rid = some room) :
    alookup (disconnect m A).user_sockets u = none
      ∧ B ∈ (disconnect m A).active_connections
      ∧ alookup (disconnect m A).rooms rid = some room := by
  have hu' : (u != "") = true := by simpa using hu
  unfold disconnect
  rw [hbindA]
  simp only [hu', if_true]
  refine ⟨alookup_aerase_self _ u, ?_, hroom⟩
  rw [List.mem_filter]
  exact ⟨hactive, by simpa using Ne.symm hAB⟩

def cmC10 : ConnectionManager :=
  ⟨[("r", ⟨"r", [⟨"B", "u", "B"⟩]⟩)], ["A", "B"], [("u", "B")],
    [("A", "u"), ("B", "u")], [("A", "r"), ("B", "r")]⟩

/-- Witness for C10 at a concrete state. -/
theorem c10_witness :
    alookup (disconnect cmC10 "A").user_sockets "u" = none
      ∧ "B" ∈ (disconnect cmC10 "A").active_connections
      ∧ alookup (disconnect cmC10 "A").rooms "r" = some ⟨"r", [⟨"B", "u", "B"⟩]⟩ :=
  c10_reap_destroys_binding cmC10 "u" "A" "B" "r" ⟨"r", [⟨"B", "u", "B"⟩]⟩
    (by decide) (by decide) (by decide) (by decide) (by decide) (by decide)

/-- C6: a room broadcast with an excluded socket never delivers (or even
attempts) to that socket; a chat broadcast attempts delivery to every
current room member, the sender included. -/
theorem c6_broadcast_exclusion (ok : String → Bool) (m : ConnectionManager)
    (room_id e sid : String) (msg : Msg) :
    (∀ ev ∈ (broadcast_to_room ok m room_id msg (some e)).2, ev.socket ≠ e)
    ∧ (∀ u msgText : String, ∀ ts : Option JVal, ∀ room : Room,
        alookup m.rooms room_id = some room → u ≠ "" → msgText ≠ "" →
        ((handle_event ok m sid room_id (.chat_message (some u) (some msgText) ts)).2).map
            (fun ev => ev.socket)
          = room.users.map (fun v => v.socket_id)) := by
  constructor
  · cases hroom : alookup m.rooms room_id with
    | none =>
      intro ev hev
      unfold broadcast_to_room at hev
      rw [hroom] at hev
      simp at hev
    | some room =>
      intro ev hev
      rw [broadcast_events ok m room_id msg (some e) room hroom] at hev
      obtain ⟨v, hv, rfl⟩ := List.mem_map.mp hev
      have hpass := (List.mem_filter.mp hv).2
      simpa [passEx] using hpass
  · intro u msgText ts room hroom hu hmsg
    have hcond : (u != "" && msgText != "") = true := by simp [hu, hmsg]
    simp only [handle_event]
    rw [if_pos hcond]
    rw [broadcast_events ok m room_id _ none room hroom, filter_passEx_none, List.map_map]
    rfl

def cmC6 : ConnectionManager :=
  ⟨[("r", ⟨"r", [⟨"A", "alice", "A"⟩, ⟨"B", "bob", "B"⟩]⟩)], ["A", "B"],
    [("alice", "A"), ("bob", "B")], [("A", "alice"), ("B", "bob")],
    [("A", "r"), ("B", "r")]⟩

/-- Witness for C6: a concrete chat broadcast reaches both room members,
the sender included. -/
theorem c6_witness :
    ((handle_event (fun _ => true) cmC6 "B" "r"
        (.chat_message (some "alice") (some "hi") none)).2).map (fun ev => ev.socket)
      = ([⟨"A", "alice", "A"⟩, ⟨"B", "bob", "B"⟩] : List User).map (fun v => v.socket_id) :=
  (c6_broadcast_exclusion (fun _ => true) cmC6 "r" "B" "B" (.user_joined "x" "y")).2
    "alice" "hi" none ⟨"r", [⟨"A", "alice", "A"⟩, ⟨"B", "bob", "B"⟩]⟩ rfl
    (by decide) (by decide)

/-- C1 (amended): a failed send does not abort a room broadcast — every
non-excluded member of the snapshot gets exactly one delivery attempt, in
order, and the failed socket ids are reaped (`disconnect`) only after the
full pass; but reaping leaves the Room Directory untouched, so the reaped
member's record (and hence its username) is still in the room afterwards. -/
theorem c1_broadcast_reap_amended (ok : String → Bool) (m : ConnectionManager)
    (room_id : String) (msg : Msg) (ex : Option String) (room : Room)
    (h : alookup m.rooms room_id = some room) :
    (broadcast_to_room ok m room_id msg ex).2
      = (room.users.filter (passEx ex)).map (fun v =>
          ⟨v.socket_id, msg, m.active_connections.contains v.socket_id && ok v.socket_id⟩)
    ∧ (broadcast_to_room ok m room_id msg ex).1
        = (((room.users.filter (passEx ex)).filter (fun v =>
            !(m.active_connections.contains v.socket_id && ok v.socket_id))).map
              (fun v => v.socket_id)).foldl disconnect m
    ∧ (broadcast_to_room ok m room_id msg ex).1.rooms = m.rooms :=
  ⟨broadcast_events ok m room_id msg ex room h,
   broadcast_state ok m room_id msg ex room h,
   broadcast_to_room_rooms ok m room_id msg ex⟩

def cmC1 : ConnectionManager :=
  ⟨[("r", ⟨"r", [⟨"A", "alice", "A"⟩, ⟨"B", "bob", "B"⟩, ⟨"C", "carol", "C"⟩]⟩)],
    ["A", "B", "C"],
    [("alice", "A"), ("bob", "B"), ("carol", "C")],
    [("A", "alice"), ("B", "bob"), ("C", "carol")],
    [("A", "r"), ("B", "r"), ("C", "r")]⟩

/-- Witness for C1 (amended) at a concrete state: the broadcast with a
failing member leaves the Room Directory unchanged. -/
theorem c1_witness :
    (broadcast_to_room (fun s => s != "B") cmC1 "r"
        (.new_message "alice" "hi" .jnull) none).1.rooms = cmC1.rooms :=
  (c1_broadcast_reap_amended (fun s => s != "B") cmC1 "r" (.new_message "alice" "hi" .jnull)
    none ⟨"r", [⟨"A", "alice", "A"⟩, ⟨"B", "bob", "B"⟩, ⟨"C", "carol", "C"⟩]⟩ rfl).2.2

/-- Counterexample to C1 as stated: with members alice, bob, carol and a
send to bob failing, the broadcast reaps bob's socket `"B"` (it leaves the
connection registry), yet the immediately-following member-list snapshot
(`send_user_list`) still lists bob — the reap does not remove the member
record from the Room Directory. -/
theorem c1_counterexample :
    ((broadcast_to_room (fun s => s != "B") cmC1 "r"
        (.new_message "alice" "hi" .jnull) none).1.active_connections = ["A", "C"])
    ∧ ((Msg.online_users [("alice", "A"), ("bob", "B"), ("carol", "C")])
        ∈ ((send_user_list (fun s => s != "B")
            (broadcast_to_room (fun s => s != "B") cmC1 "r"
              (.new_message "alice" "hi" .jnull) none).1 "r").2.map (fun ev => ev.msg))) := by
  constructor
  · rfl
  · decide

/-- C7: a directed WebRTC signal whose target username is unbound makes the
unicast return failure, and the handler sends the requesting socket exactly
one error notice naming the target; the manager state is unchanged.  (The
source catches every transport exception inside `send_personal_message`, so
the embedded handler is a total function — nothing propagates to the
caller.) -/
theorem c7_unknown_target_error (ok : String → Bool) (m : ConnectionManager)
    (sid rid sender target : String) (fields : List (String × JVal))
    (hs : sender ≠ "") (ht : target ≠ "") (hf : fields ≠ [])
    (hmiss : alookup m.user_sockets target = none) (hok : ok sid = true) :
    (send_to_user ok m target (.webrtc_signal sender fields)).2.2 = false
    ∧ (handle_event ok m sid rid (.webrtc_signal (some sender) (some target) (some fields))).1 = m
    ∧ (handle_event ok m sid rid (.webrtc_signal (some sender) (some target) (some fields))).2
        = [⟨sid, .error ("Failed to deliver WebRTC signal to " ++ target), true⟩] := by
  have hsend : send_to_user ok m target (.webrtc_signal sender fields) = (m, [], false) := by
    unfold send_to_user
    rw [hmiss]
  have hcond : (otruthy (some sender) && otruthy (some target) && !fields.isEmpty) = true := by
    cases fields with
    | nil => exact absurd rfl hf
    | cons a l => simp [otruthy, hs, ht]
  refine ⟨by rw [hsend], ?_, ?_⟩
  · simp only [handle_event]
    rw [if_pos hcond]
    simp [hsend, ws_send, hok]
  · simp only [handle_event]
    rw [if_pos hcond]
    simp [hsend, ws_send, hok]

def cmC7 : ConnectionManager :=
  ⟨[("r", ⟨"r", [⟨"A", "alice", "A"⟩]⟩)], ["A"], [("alice", "A")],
    [("A", "alice")], [("A", "r")]⟩

/-- Witness for C7: sending a signal to the unbound username `"carol"`
fails and produces the error notice to the sender's socket. -/
theorem c7_witness :
    (send_to_user (fun _ => true) cmC7 "carol" (.webrtc_signal "alice" [("type", .jstr "offer")])).2.2 = false
    ∧ (handle_event (fun _ => true) cmC7 "A" "r"
        (.webrtc_signal (some "alice") (some "carol") (some [("type", .jstr "offer")]))).1 = cmC7
    ∧ (handle_event (fun _ => true) cmC7 "A" "r"
        (.webrtc_signal (some "alice") (some "carol") (some [("type", .jstr "offer")]))).2
        = [⟨"A", .error ("Failed to deliver WebRTC signal to " ++ "carol"), true⟩] :=
  c7_unknown_target_error (fun _ => true) cmC7 "A" "r" "alice" "carol"
    [("type", .jstr "offer")] (by decide) (by decide) (by decide) rfl rfl

theorem send_to_user_hit (ok : String → Bool) (m : ConnectionManager)
    (target tsid : String) (msg : Msg)
    (hbind : alookup m.user_sockets target = some tsid) (htsid : tsid ≠ "")
    (hact : m.active_connections.contains tsid = true) (hok : ok tsid = true) :
    send_to_user ok m target msg = (m, [⟨tsid, msg, true⟩], true) := by
  unfold send_to_user send_personal_message
  rw [hbind]
  have htsid2 : (tsid != "") = true := by simpa using htsid
  have hact2 : tsid ∈ m.active_connections := by simpa using hact
  simp [htsid2, hact2, hok]

theorem send_to_user_miss (ok : String → Bool) (m : ConnectionManager)
    (target : String) (msg : Msg) (hmiss : alookup m.user_sockets target = none) :
    send_to_user ok m target msg = (m, [], false) := by
  unfold send_to_user
  rw [hmiss]

/-- C8: with sender and target present, a file-transfer request is never
rejected for its size field; the request forwarded to the target carries
the original `file_size` when it is a non-negative number and `0` when the
field is missing, non-numeric (a string, `null`, …), or negative, and a
missing `file_type` defaults to `"application/octet-stream"`.  (As in the
source's `isinstance(file_size, (int, float))`, a boolean counts as a
number — Python `bool` subclasses `int` — and is forwarded unchanged.) -/
theorem c8_file_size_normalization (ok : String → Bool) (m : ConnectionManager)
    (sid rid sender target tsid : String) (filename file_type : Option String)
    (file_size : Option JVal)
    (hs : sender ≠ "") (ht : target ≠ "")
    (hbind : alookup m.user_sockets target = some tsid) (htsid : tsid ≠ "")
    (hact : m.active_connections.contains tsid = true) (hok : ok tsid = true) :
    (handle_event ok m sid rid
        (.file_transfer_request (some sender) (some target) filename file_size file_type)).2
      = [⟨tsid, .file_transfer_request sender
            (match filename with
             | some f => if f != "" then f else "Unknown file"
             | none => "Unknown file")
            (normFileSize file_size) (file_type.getD "application/octet-stream"), true⟩]
    ∧ (∀ n : Int, 0 ≤ n → normFileSize (some (.jnum n)) = .jnum n)
    ∧ (∀ n : Int, n < 0 → normFileSize (some (.jnum n)) = .jnum 0)
    ∧ normFileSize none = .jnum 0
    ∧ (∀ s : String, normFileSize (some (.jstr s)) = .jnum 0)
    ∧ normFileSize (some .jnull) = .jnum 0
    ∧ (∀ ev ∈ (handle_event ok m sid rid
          (.file_transfer_request (some sender) (some target) filename file_size file_type)).2,
        ev.msg ≠ .error "Invalid file transfer request") := by
  have hcond : (!(otruthy (some sender) && otruthy (some target))) = false := by
    simp [otruthy, hs, ht]
  have htrace : (handle_event ok m sid rid
      (.file_transfer_request (some sender) (some target) filename file_size file_type)).2
      = [⟨tsid, .file_transfer_request sender
          (match filename with
           | some f => if f != "" then f else "Unknown file"
           | none => "Unknown file")
          (normFileSize file_size) (file_type.getD "application/octet-stream"), true⟩] := by
    simp only [handle_event, Option.getD_some]
    rw [if_neg (by rw [hcond]; exact Bool.false_ne_true)]
    rw [send_to_user_hit ok m target tsid _ hbind htsid hact hok]
    simp
  refine ⟨htrace, ?_, ?_, rfl, fun s => rfl, rfl, ?_⟩
  · intro n hn
    simp only [normFileSize]
    rw [if_neg (by omega)]
  · intro n hn
    simp only [normFileSize]
    rw [if_pos hn]
  · intro ev hev
    rw [htrace] at hev
    simp only [List.mem_singleton] at hev
    subst hev
    simp

def cmC8 : ConnectionManager :=
  ⟨[("r", ⟨"r", [⟨"A", "alice", "A"⟩, ⟨"B", "bob", "B"⟩]⟩)], ["A", "B"],
    [("alice", "A"), ("bob", "B")], [("A", "alice"), ("B", "bob")],
    [("A", "r"), ("B", "r")]⟩

/-- Witness for C8: a string `file_size` is forwarded to the target as `0`,
with the filename and file type defaults applied. -/
theorem c8_witness :
    (handle_event (fun _ => true) cmC8 "A" "r"
        (.file_transfer_request (some "alice") (some "bob") none
          (some (.jstr "not-a-number")) none)).2
      = [⟨"B", .file_transfer_request "alice" "Unknown file" (.jnum 0)
            "application/octet-stream", true⟩] :=
  (c8_file_size_normalization (fun _ => true) cmC8 "A" "r" "alice" "bob" "B"
    none none (some (.jstr "not-a-number")) (by decide) (by decide) rfl (by decide)
    rfl rfl).1

def isErrorMsg : Msg → Bool
  | .error _ => true
  | _ => false

theorem send_to_user_events_msg (ok : String → Bool) (m : ConnectionManager)
    (username : String) (msg : Msg) :
    ∀ ev ∈ (send_to_user ok m username msg).2.1, ev.msg = msg := by
  unfold send_to_user send_personal_message
  intro ev hev
  repeat split at hev
  all_goals
    first
      | (simp only [List.mem_singleton] at hev; subst hev; rfl)
      | simp at hev

/-- C9: a file-transfer response with sender and target present is relayed
to the target like a request, but its handler has no error branch at all —
on a failed delivery (for instance an unbound target) nothing is sent back
to the sender and the state is unchanged, whereas the request path does
send the sender an error notice in the same situation. -/
theorem c9_response_failure_silent (ok : String → Bool) (m : ConnectionManager)
    (sid rid sender target : String) (accepted : Option JVal)
    (filename fname ftype : Option String) (fsz : Option JVal)
    (hs : sender ≠ "") (ht : target ≠ "") :
    (∀ ev ∈ (handle_event ok m sid rid
        (.file_transfer_response (some sender) (some target) accepted filename)).2,
      isErrorMsg ev.msg = false)
    ∧ (alookup m.user_sockets target = none →
        handle_event ok m sid rid
          (.file_transfer_response (some sender) (some target) accepted filename) = (m, []))
    ∧ (alookup m.user_sockets target = none → ok sid = true →
        (handle_event ok m sid rid
          (.file_transfer_request (some sender) (some target) fname fsz ftype)).2
          = [⟨sid, .error ("User " ++ target ++ " is not available"), true⟩]) := by
  have hcond : (otruthy (some sender) && otruthy (some target)) = true := by
    simp [otruthy, hs, ht]
  refine ⟨?_, ?_, ?_⟩
  · simp only [handle_event, Option.getD_some]
    rw [if_pos hcond]
    intro ev hev
    have hmsg := send_to_user_events_msg ok m target _ ev hev
    rw [hmsg]
    rfl
  · intro hmiss
    simp only [handle_event, Option.getD_some]
    rw [if_pos hcond]
    rw [send_to_user_miss ok m target _ hmiss]
  · intro hmiss hok
    simp only [handle_event, Option.getD_some]
    rw [if_neg (by simp [hcond])]
    rw [send_to_user_miss ok m target _ hmiss]
    simp [ws_send, hok]

def cmC9 : ConnectionManager :=
  ⟨[("r", ⟨"r", [⟨"A", "alice", "A"⟩]⟩)], ["A"], [("alice", "A")],
    [("A", "alice")], [("A", "r")]⟩

/-- Witness for C9: responding towards the unbound `"carol"` produces no
message at all, while the matching request produces an error notice. -/
theorem c9_witness :
    handle_event (fun _ => true) cmC9 "A" "r"
        (.file_transfer_response (some "alice") (some "carol") (some (.jbool true)) none)
      = (cmC9, [])
    ∧ (handle_event (fun _ => true) cmC9 "A" "r"
        (.file_transfer_request (some "alice") (some "carol") none none none)).2
      = [⟨"A", .error ("User " ++ "carol" ++ " is not available"), true⟩] :=
  ⟨(c9_response_failure_silent (fun _ => true) cmC9 "A" "r" "alice" "carol"
      (some (.jbool true)) none none none none (by decide) (by decide)).2.1 rfl,
   (c9_response_failure_silent (fun _ => true) cmC9 "A" "r" "alice" "carol"
      (some (.jbool true)) none none none none (by decide) (by decide)).2.2 rfl rfl⟩

/-- The C3 scenario: from the empty state, socket `A` connects and joins
room `r` as `u`, then socket `B` connects and joins the same room as the
same `u` (all sends succeeding). -/
def mC3 (u A B r : String) : ConnectionManager :=
  (join_room (fun _ => true)
    (connect ((join_room (fun _ => true) (connect emptyCM A) A r u).1) B) B r u).1

theorem mC3_eval (u A B r : String) (hAB : A ≠ B) :
    mC3 u A B r = ⟨[(r, ⟨r, [⟨B, u, B⟩]⟩)], [A, B], [(u, B)], [(A, u), (B, u)],
      [(A, r), (B, r)]⟩ := by
  have hab : (A == B) = false := by simpa using hAB
  have hba : (B == A) = false := by simpa using Ne.symm hAB
  have hne : B ≠ A := Ne.symm hAB
  have h2 : join_bind ⟨[], [A], [], [], []⟩ A r u
      = ⟨[], [A], [(u, A)], [(A, u)], [(A, r)]⟩ := rfl
  have h3 : join_add_member ⟨[], [A], [(u, A)], [(A, u)], [(A, r)]⟩ A r u
      = ⟨[(r, ⟨r, [⟨A, u, A⟩]⟩)], [A], [(u, A)], [(A, u)], [(A, r)]⟩ := by
    simp [join_add_member, updateRoom, ainsert, aerase, alookup]
  have h4 : broadcast_to_room (fun _ => true) ⟨[(r, ⟨r, [⟨A, u, A⟩]⟩)], [A], [(u, A)],
        [(A, u)], [(A, r)]⟩ r (.user_joined u (u ++ " has joined the room!")) (some A)
      = (⟨[(r, ⟨r, [⟨A, u, A⟩]⟩)], [A], [(u, A)], [(A, u)], [(A, r)]⟩, []) := by
    simp [broadcast_to_room, alookup, bstep, passEx]
  have h5 : send_user_list (fun _ => true) ⟨[(r, ⟨r, [⟨A, u, A⟩]⟩)], [A], [(u, A)],
        [(A, u)], [(A, r)]⟩ r
      = (⟨[(r, ⟨r, [⟨A, u, A⟩]⟩)], [A], [(u, A)], [(A, u)], [(A, r)]⟩,
         [⟨A, .online_users [(u, A)], true⟩]) := by
    simp [send_user_list, broadcast_to_room, alookup, bstep, passEx, List.contains]
  have h6 : (join_room (fun _ => true) ⟨[], [A], [], [], []⟩ A r u).1
      = ⟨[(r, ⟨r, [⟨A, u, A⟩]⟩)], [A], [(u, A)], [(A, u)], [(A, r)]⟩ := by
    simp only [join_room, h2, h3, h4, h5]
  have h7 : connect ⟨[(r, ⟨r, [⟨A, u, A⟩]⟩)], [A], [(u, A)], [(A, u)], [(A, r)]⟩ B
      = ⟨[(r, ⟨r, [⟨A, u, A⟩]⟩)], [A, B], [(u, A)], [(A, u)], [(A, r)]⟩ := by
    simp [connect, List.contains, hba, hne]
  have h8 : join_bind ⟨[(r, ⟨r, [⟨A, u, A⟩]⟩)], [A, B], [(u, A)], [(A, u)], [(A, r)]⟩ B r u
      = ⟨[(r, ⟨r, [⟨A, u, A⟩]⟩)], [A, B], [(u, B)], [(A, u), (B, u)], [(A, r), (B, r)]⟩ := by
    simp [join_bind, alookup, ainsert, aerase, List.find?, hab, bne, hba, hAB, hne]
  have h9 : join_add_member ⟨[(r, ⟨r, [⟨A, u, A⟩]⟩)], [A, B], [(u, B)], [(A, u), (B, u)],
        [(A, r), (B, r)]⟩ B r u
      = ⟨[(r, ⟨r, [⟨B, u, B⟩]⟩)], [A, B], [(u, B)], [(A, u), (B, u)], [(A, r), (B, r)]⟩ := by
    simp [join_add_member, updateRoom, ainsert, aerase, alookup, bne, hab, hAB, hne]
  have h10 : broadcast_to_room (fun _ => true) ⟨[(r, ⟨r, [⟨B, u, B⟩]⟩)], [A, B], [(u, B)],
        [(A, u), (B, u)], [(A, r), (B, r)]⟩ r
        (.user_joined u (u ++ " has joined the room!")) (some B)
      = (⟨[(r, ⟨r, [⟨B, u, B⟩]⟩)], [A, B], [(u, B)], [(A, u), (B, u)], [(A, r), (B, r)]⟩,
         []) := by
    simp [broadcast_to_room, alookup, bstep, passEx]
  have h11 : send_user_list (fun _ => true) ⟨[(r, ⟨r, [⟨B, u, B⟩]⟩)], [A, B], [(u, B)],
        [(A, u), (B, u)], [(A, r), (B, r)]⟩ r
      = (⟨[(r, ⟨r, [⟨B, u, B⟩]⟩)], [A, B], [(u, B)], [(A, u), (B, u)], [(A, r), (B, r)]⟩,
         [⟨B, .online_users [(u, B)], true⟩]) := by
    simp [send_user_list, broadcast_to_room, alookup, bstep, passEx, List.contains, hba, hne]
  have h12 : (join_room (fun _ => true) ⟨[(r, ⟨r, [⟨A, u, A⟩]⟩)], [A, B], [(u, A)],
        [(A, u)], [(A, r)]⟩ B r u).1
      = ⟨[(r, ⟨r, [⟨B, u, B⟩]⟩)], [A, B], [(u, B)], [(A, u), (B, u)], [(A, r), (B, r)]⟩ := by
    simp only [join_room, h8, h9, h10, h11]
  show (join_room (fun _ => true)
    (connect ((join_room (fun _ => true) (connect emptyCM A) A r u).1) B) B r u).1 = _
  rw [show connect emptyCM A = ⟨[], [A], [], [], []⟩ from rfl, h6, h7, h12]

/-- C3: after username `u` is bound to socket `A` (join) and then to a
different socket `B` (a later join), the username lookup returns `B`, `A`
is still registered in the connection registry, and no username lookup
resolves to `A`. -/
theorem c3_last_writer_wins (u A B r : String) (hAB : A ≠ B) :
    alookup (mC3 u A B r).user_sockets u = some B
      ∧ (mC3 u A B r).active_connections.contains A = true
      ∧ ∀ v, alookup (mC3 u A B r).user_sockets v ≠ some A := by
  rw [mC3_eval u A B r hAB]
  refine ⟨?_, ?_, ?_⟩
  · simp [alookup]
  · simp [List.contains]
  · intro v
    by_cases hv : (u == v) = true
    · simp [alookup, List.find?, hv, Ne.symm hAB]
    · simp [alookup, List.find?, hv]

/-- Witness for C3 at concrete strings. -/
theorem c3_witness :
    alookup (mC3 "u" "A" "B" "r").user_sockets "u" = some "B"
      ∧ (mC3 "u" "A" "B" "r").active_connections.contains "A" = true
      ∧ alookup (mC3 "u" "A" "B" "r").user_sockets "v" ≠ some "A" :=
  ⟨(c3_last_writer_wins "u" "A" "B" "r" (by decide)).1,
   (c3_last_writer_wins "u" "A" "B" "r" (by decide)).2.1,
   (c3_last_writer_wins "u" "A" "B" "r" (by decide)).2.2 "v"⟩

def isUserJoinedMsg : Msg → Bool
  | .user_joined _ _ => true
  | _ => false

def isOnlineUsersMsg : Msg → Bool
  | .online_users _ => true
  | _ => false

theorem join_room_trace (ok : String → Bool) (m : ConnectionManager) (sid rid u : String) :
    (join_room ok m sid rid u).2
      = (broadcast_to_room ok (join_add_member (join_bind m sid rid u) sid rid u) rid
          (.user_joined u (u ++ " has joined the room!")) (some sid)).2
        ++ (send_user_list ok
            (broadcast_to_room ok (join_add_member (join_bind m sid rid u) sid rid u) rid
              (.user_joined u (u ++ " has joined the room!")) (some sid)).1 rid).2 := rfl

/-- C4 (amended): a Join event carrying a username performs bind then
add_member, then broadcasts the member-joined notice to the room excluding
the joiner, then the member-list snapshot to all members including the
joiner, and only after these broadcasts sends the joiner the
join-acknowledgement carrying the room id and connection id — the
acknowledgement is the last message, not the first. -/
theorem c4_join_order_amended (ok : String → Bool) (m : ConnectionManager)
    (sid rid u : String) (hu : u ≠ "") (hok : ok sid = true) :
    ∃ tr1 tr2,
      (handle_event ok m sid rid (.join_room (some u))).2
        = tr1 ++ tr2 ++ [⟨sid, .join_success rid sid, true⟩]
      ∧ (∀ ev ∈ tr1, isUserJoinedMsg ev.msg = true ∧ ev.socket ≠ sid)
      ∧ (∀ ev ∈ tr2, isOnlineUsersMsg ev.msg = true)
      ∧ (∃ ev ∈ tr2, ev.socket = sid) := by
  have hu2 : (u != "") = true := by simpa using hu
  have hm2 := join_add_member_lookup (join_bind m sid rid u) sid rid u
  have hrooms : alookup (broadcast_to_room ok
      (join_add_member (join_bind m sid rid u) sid rid u) rid
      (.user_joined u (u ++ " has joined the room!")) (some sid)).1.rooms rid
      = some ⟨((alookup (join_bind m sid rid u).rooms rid).getD ⟨rid, []⟩).room_id,
          (roomUsers (join_bind m sid rid u) rid).filter
            (fun v => v.id != sid && v.username != u) ++ [⟨sid, u, sid⟩]⟩ := by
    rw [broadcast_to_room_rooms]
    exact hm2
  refine ⟨(broadcast_to_room ok (join_add_member (join_bind m sid rid u) sid rid u) rid
      (.user_joined u (u ++ " has joined the room!")) (some sid)).2,
    (send_user_list ok (broadcast_to_room ok (join_add_member (join_bind m sid rid u)
        sid rid u) rid (.user_joined u (u ++ " has joined the room!")) (some sid)).1 rid).2,
    ?_, ?_, ?_, ?_⟩
  · simp only [handle_event]
    rw [if_pos hu2]
    unfold ws_send
    rw [if_pos hok]
    rw [join_room_trace, List.append_assoc]
  · intro ev hev
    rw [broadcast_events ok _ rid _ (some sid) _ hm2] at hev
    obtain ⟨v, hv, rfl⟩ := List.mem_map.mp hev
    refine ⟨rfl, ?_⟩
    have hpass := (List.mem_filter.mp hv).2
    simpa [passEx] using hpass
  · intro ev hev
    rw [send_user_list_events _ _ _ _ hrooms] at hev
    obtain ⟨v, hv, rfl⟩ := List.mem_map.mp hev
    rfl
  · have hmem : (⟨sid, u, sid⟩ : User) ∈
        (⟨((alookup (join_bind m sid rid u).rooms rid).getD ⟨rid, []⟩).room_id,
          (roomUsers (join_bind m sid rid u) rid).filter
            (fun v => v.id != sid && v.username != u) ++ [⟨sid, u, sid⟩]⟩ : Room).users := by
      simp
    rw [send_user_list_events _ _ _ _ hrooms]
    exact ⟨_, List.mem_map_of_mem _ hmem, rfl⟩

def cmC4 : ConnectionManager :=
  ⟨[("r", ⟨"r", [⟨"A", "alice", "A"⟩]⟩)], ["A", "B"], [("alice", "A")],
    [("A", "alice")], [("A", "r")]⟩

/-- Counterexample to C4 as stated: in a concrete join (bob joining a room
already holding alice), the join-acknowledgement is the LAST message sent —
the member-joined notice and both member-list snapshots precede it — so the
claimed order (acknowledgement before the broadcasts) is false. -/
theorem c4_counterexample :
    (handle_event (fun _ => true) cmC4 "B" "r" (.join_room (some "bob"))).2
      = [⟨"A", .user_joined "bob" "bob has joined the room!", true⟩,
         ⟨"A", .online_users [("alice", "A"), ("bob", "B")], true⟩,
         ⟨"B", .online_users [("alice", "A"), ("bob", "B")], true⟩,
         ⟨"B", .join_success "r" "B", true⟩]
    ∧ ((handle_event (fun _ => true) cmC4 "B" "r" (.join_room (some "bob"))).2.head?.map
        (fun ev => ev.msg)) ≠ some (.join_success "r" "B") := by
  decide

/-- Witness for C4 (amended) at a concrete input. -/
theorem c4_witness :
    ∃ tr1 tr2,
      (handle_event (fun _ => true) cmC4 "B" "r" (.join_room (some "bob"))).2
        = tr1 ++ tr2 ++ [⟨"B", .join_success "r" "B", true⟩]
      ∧ (∀ ev ∈ tr1, isUserJoinedMsg ev.msg = true ∧ ev.socket ≠ "B")
      ∧ (∀ ev ∈ tr2, isOnlineUsersMsg ev.msg = true)
      ∧ (∃ ev ∈ tr2, ev.socket = "B") :=
  c4_join_order_amended (fun _ => true) cmC4 "B" "r" "bob" (by decide) rfl
